import Mathlib

/-!
Shallow embedding of the sqlalchemy-fsm state-machine registry and
transition-dispatch engine, translated from
src/sqlalchemy_fsm/state_machine.py and src/sqlalchemy_fsm/transition.py.

Modelling conventions:
  - Python dicts become association lists (List (key x value)); dict lookup
    is List.lookup, dict.setdefault appends at the end when the key is absent.
  - Python object identity is modelled by a uid field; freshly constructed
    objects receive a uid from an explicit allocation counter, so
    reference-identical means equal as Lean values (uid included).
  - Raising an exception becomes returning the error branch of Except or
    Option; mutation becomes explicit state passing, with the updated
    object returned next to the Python return value.
  - Modules imported by the two source files but absent from the sources
    (meta, util, cache, bound, exc, sqltypes) are modelled from the spec;
    each such definition carries a doc comment saying so.
  - The frozen transition.py reads the attribute names _sa_fsm_sqla_handle,
    _sa_fsm_meta, _sa_fsm_bound_meta and _sa_fsm_transition_fn, which no
    code in src ever assigns (the __init__ methods store other names), so
    those method bodies raise AttributeError before doing any work.  The
    doomed reads are embedded explicitly (PyExc.attributeError, guarded by
    the lists of assigned attribute names), and the sequences behind them
    are modelled from the spec as the intended behavior.
-/

/-- A database column of the mapped table.  The isFSMField flag models the
runtime test isinstance(col.type, sqltypes.FSMField) used by
find_fsm_column (the sqltypes module is external to the embedded core). -/
structure Column where
  name : String
  isFSMField : Bool
deriving DecidableEq

/-- A mapped record type (the table class); uid models Python object
identity, columns models sqla_inspect(table_class).columns. -/
structure TableClass where
  uid : Nat
  columns : List Column
deriving DecidableEq

/-- Errors raised during registry construction (exc.SetupError). -/
inductive SetupError where
  | noFSMField
  | multipleFSMFields (found : List Column)
deriving DecidableEq

/-- Embeds find_fsm_column of state_machine.py: filter the columns whose
type is FSMField; zero matches and two or more matches are setup errors,
a unique match is returned. -/
def find_fsm_column (table_class : TableClass) : Except SetupError Column :=
  match table_class.columns.filter (fun col => col.isFSMField) with
  | [] => .error .noFSMField
  | [col] => .ok col
  | col :: rest => .error (.multipleFSMFields (col :: rest))

/-- Modelled from the spec: the meta module (class FSMMeta) is not under
src.  Spec section 6, annotation surface: a transition declaration carries
source labels (possibly the wildcard marker), one literal target label and
guard conditions; here guards and the handler are identified by ids, their
evaluation being modelled separately for the instance-bound operations. -/
structure FSMMeta where
  sources : List String
  target : String
  conditionIds : List Nat
  handlerId : Nat
deriving DecidableEq

/-- The wildcard source marker, spelled "*" in the decorator default. -/
def wildcard : String := "*"

/-- Modelled from the spec: util.is_valid_literal_state is not under src.
Spec glossary: literal state labels are all labels other than the wildcard
source marker. -/
def is_valid_literal_state (label : String) : Bool :=
  label != wildcard

/-- Embeds FSMState of state_machine.py: the parent back reference is kept
as the parent registry uid; uid models the identity of this State object. -/
structure FSMState where
  parentUid : Nat
  value : String
  uid : Nat
deriving DecidableEq

/-- Embeds FSMStateTransition of state_machine.py. -/
structure FSMStateTransition where
  parentUid : Nat
  meta : FSMMeta
deriving DecidableEq

/-- Embeds FiniteStateMachine of state_machine.py.  The access_lock slot is
not modelled (the embedding is sequential); uid models the identity of the
registry object and nextUid allocates identities for new FSMState objects. -/
structure FiniteStateMachine where
  table_class : TableClass
  fsm_column : Column
  column_name : String
  states : List (String × FSMState)
  transitions : List FSMStateTransition
  uid : Nat
  nextUid : Nat
deriving DecidableEq

/-- Embeds FiniteStateMachine.__init__: resolve the FSM column (which may
raise SetupError), store its name, start with empty states and
transitions.  The uid of the new registry object is supplied by the
caller, modelling a fresh allocation. -/
def FiniteStateMachine.init (table_class : TableClass) (uid : Nat) :
    Except SetupError FiniteStateMachine :=
  (find_fsm_column table_class).map fun col =>
    { table_class := table_class
      fsm_column := col
      column_name := col.name
      states := []
      transitions := []
      uid := uid
      nextUid := 0 }

/-- The error raised by a failed dict lookup in get_state (Python
KeyError). -/
inductive KeyNotFound where
  | keyNotFound (label : String)
deriving DecidableEq

/-- Embeds FiniteStateMachine.get_state: self.states[label], raising
KeyError when the label was never registered. -/
def FiniteStateMachine.get_state (fsm : FiniteStateMachine) (label : String) :
    Except KeyNotFound FSMState :=
  match fsm.states.lookup label with
  | some s => .ok s
  | none => .error (.keyNotFound label)

/-- Embeds FiniteStateMachine.register_state:
self.states.setdefault(label, FSMState(self, label)) under the access
lock.  Returns the State object next to the updated registry; a fresh
FSMState consumes the allocation counter. -/
def FiniteStateMachine.register_state (fsm : FiniteStateMachine)
    (label : String) : FSMState × FiniteStateMachine :=
  match fsm.states.lookup label with
  | some s => (s, fsm)
  | none =>
    let s : FSMState := { parentUid := fsm.uid, value := label, uid := fsm.nextUid }
    (s, { fsm with states := fsm.states ++ [(label, s)], nextUid := fsm.nextUid + 1 })

/-- Embeds FiniteStateMachine.register_transition: construct the
FSMStateTransition, register every valid literal state among
tuple(meta.sources) + (meta.target,), append the transition to the
transition list and return it. -/
def FiniteStateMachine.register_transition (fsm : FiniteStateMachine)
    (m : FSMMeta) : FSMStateTransition × FiniteStateMachine :=
  let t : FSMStateTransition := { parentUid := fsm.uid, meta := m }
  let fsm' := (m.sources ++ [m.target]).foldl
    (fun acc a_state =>
      if is_valid_literal_state a_state then (acc.register_state a_state).2 else acc)
    fsm
  (t, { fsm' with transitions := fsm'.transitions ++ [t] })

/-- A live record of the mapped table.  The engine reads exactly one
attribute of the record (the FSM state attribute resolved at setup, spec
section 6, external accessor read(record, attributeName)); the embedding
keeps just that raw value. -/
structure FsmRecord where
  stateValue : String
deriving DecidableEq

/-- Embeds InstanceBoundStateMachine of state_machine.py. -/
structure InstanceBoundStateMachine where
  cls_fsm : FiniteStateMachine
  inst : FsmRecord
deriving DecidableEq

/-- Embeds InstanceBoundStateMachine.current_raw_value:
getattr(self.instance, self.cls_fsm.column_name). -/
def InstanceBoundStateMachine.current_raw_value
    (ib : InstanceBoundStateMachine) : String :=
  ib.inst.stateValue

/-- Embeds InstanceBoundStateMachine.current_state:
self.cls_fsm.get_state(self.current_raw_value). -/
def InstanceBoundStateMachine.current_state
    (ib : InstanceBoundStateMachine) : Except KeyNotFound FSMState :=
  ib.cls_fsm.get_state ib.current_raw_value

/-- The owner record type as the descriptor protocol sees it: the table
class together with the attribute slot _sa_fsm_sqlalchemy_handle, which is
absent (AttributeError) until the first annotated access stores the
registry there. -/
structure OwnerClass where
  table_class : TableClass
  handle : Option FiniteStateMachine
deriving DecidableEq

/-- Embeds FsmTransition.__get__ of transition.py, restricted to the part
shared by both binding modes: fetch owner._sa_fsm_sqlalchemy_handle,
constructing and storing a fresh FiniteStateMachine on AttributeError
(construction may raise SetupError), then register this declaration via
register_transition.  freshUid supplies the identity a newly constructed
registry would receive; it is consumed only when construction happens.
Returns the registered transition and the owner with its updated handle. -/
def FsmTransition.get (m : FSMMeta) (owner : OwnerClass) (freshUid : Nat) :
    Except SetupError (FSMStateTransition × OwnerClass) :=
  let rootE : Except SetupError FiniteStateMachine :=
    match owner.handle with
    | some fsm_machine_root => .ok fsm_machine_root
    | none => FiniteStateMachine.init owner.table_class freshUid
  rootE.map fun fsm_machine_root =>
    let (fsm_transition, root') := fsm_machine_root.register_transition m
    (fsm_transition, { owner with handle := some root' })

/-- Iterates FsmTransition.get n times on the same declaration and owner,
modelling n sequential accesses of one annotated attribute. -/
def FsmTransition.accessTimes (m : FSMMeta) (owner : OwnerClass)
    (freshUid : Nat) : Nat → Except SetupError OwnerClass
  | 0 => .ok owner
  | n + 1 =>
    (FsmTransition.get m owner freshUid).bind fun res =>
      FsmTransition.accessTimes m res.2 freshUid n

/-- A SQLAlchemy filter expression over the state column: the equality
filter column == target built by sql_equality_cache, and the boolean
comparison expression built by its is_ operator. -/
inductive SqlExpr where
  | eqExpr (column : Column) (target : String)
  | isExpr (e : SqlExpr) (b : Bool)
deriving DecidableEq

/-- Embeds the function body wrapped by sql_equality_cache in
transition.py: assert target (falsy targets fail the assertion, modelled
as none) and return column == target. -/
def sql_equality (key : Column × String) : Option SqlExpr :=
  if key.2 = "" then none else some (.eqExpr key.1 key.2)

/-- Modelled from the spec: the cache module (dict_cache) is not under
src.  Spec section 4.6: get_value(key) memoizes the wrapped computation by
key, computing it at most once per distinct key. -/
structure DictCache (κ ν : Type) where
  entries : List (κ × ν)
deriving DecidableEq

/-- Modelled from the spec: memoized lookup of the dict_cache collaborator.
A hit returns the stored value with the cache untouched; a miss computes
the value, stores it and returns it; a failing computation (the assertion
in sql_equality) propagates and caches nothing. -/
def DictCache.get_value {κ ν : Type} [BEq κ] (c : DictCache κ ν)
    (f : κ → Option ν) (k : κ) : Option (ν × DictCache κ ν) :=
  match c.entries.lookup k with
  | some v => some (v, c)
  | none =>
    match f k with
    | some v => some (v, { entries := c.entries ++ [(k, v)] })
    | none => none

/-- The memo state of sql_equality_cache. -/
abbrev EqCache := DictCache (Column × String) SqlExpr

/-- Embeds sql_equality_cache.get_value as used by the class-bound view. -/
def sql_equality_cache_get (c : EqCache) (key : Column × String) :
    Option (SqlExpr × EqCache) :=
  c.get_value sql_equality key

/-- Embeds ClassBoundFsmTransition of transition.py: the owner class (by
identity), the class-bound state machine and the registered transition. -/
structure ClassBoundFsmTransition where
  owner_cls_uid : Nat
  state_machine : FiniteStateMachine
  transition : FSMStateTransition
deriving DecidableEq

/-- Modelled from the spec: the predicate construction that
ClassBoundFsmTransition.__call__ is intended to perform (spec 4.3,
asPredicate): delegate to the predicate cache with key (state attribute,
transition target), threading the memo state explicitly.  The frozen
body (transition.py:61-65) never gets here: it first reads
self._sa_fsm_sqla_handle and self._sa_fsm_meta, names assigned nowhere in
src (the __init__ stores _sa_fsm_owner_cls, state_machine and
transition), so every call raises AttributeError; see
ClassBoundFsmTransition.call below.  The stored state_machine and
transition supply the state attribute and the target of the spec. -/
def ClassBoundFsmTransition.intendedCall (cb : ClassBoundFsmTransition)
    (cache : EqCache) : Option (SqlExpr × EqCache) :=
  sql_equality_cache_get cache
    (cb.state_machine.fsm_column, cb.transition.meta.target)

/-- A Python value passed to the is_ comparison; the bool constructor is
exactly the set of values satisfying isinstance(value, bool). -/
inductive PyValue where
  | bool (b : Bool)
  | str (s : String)
  | int (n : Int)
deriving DecidableEq

/-- What ClassBoundFsmTransition.is_ returns: either a SQLAlchemy
expression (the predicate comparison) or the Python literal False. -/
inductive IsResult where
  | expr (e : SqlExpr)
  | falseLiteral
deriving DecidableEq

/-- Modelled from the spec: the comparison ClassBoundFsmTransition.is_ is
intended to perform (spec 4.3, equals): for a bool argument, build
self().is_(value) on the intended predicate; for anything else, emit a
warning and return the Python literal False without touching the cache.
The first component collects emitted warnings; the Option is the
assertion failure channel reachable through the predicate
construction. -/
def ClassBoundFsmTransition.intendedIsCmp (cb : ClassBoundFsmTransition)
    (cache : EqCache) (value : PyValue) :
    Option (List String × IsResult × EqCache) :=
  match value with
  | .bool b =>
    match cb.intendedCall cache with
    | some (p, c') => some ([], .expr (.isExpr p b), c')
    | none => none
  | _ => some (["Unexpected is_ argument"], .falseLiteral, cache)

/-- A Python exception escaping the frozen view methods: AttributeError
from reading a never-assigned attribute name, or the failed assertion
inside sql_equality_cache. -/
inductive PyExc where
  | attributeError (name : String)
  | assertionError
deriving DecidableEq

/-- The attribute names ever assigned on a ClassBoundFsmTransition
object: __slots__ admits exactly these three and __init__
(transition.py:51-59) assigns them all; no other assignment to such an
object exists anywhere in src. -/
def classBoundAssignedAttrs : List String :=
  ["_sa_fsm_owner_cls", "state_machine", "transition"]

/-- The attribute names ever assigned on an InstanceBoundFsmTransition
object, per its __slots__ and __init__ (transition.py:79-93). -/
def instanceBoundAssignedAttrs : List String :=
  ["_sa_fsm_owner_cls", "state_machine", "transition", "_sa_fsm_self"]

/-- Embeds ClassBoundFsmTransition.__call__ as frozen
(transition.py:61-65): the body starts by reading
self._sa_fsm_sqla_handle (line 63) and self._sa_fsm_meta (line 64); a
read succeeds only for an assigned attribute name, and these two are
assigned nowhere in src, so the first read raises AttributeError and the
cache lookup (the intended construction) is never reached.  The guards
are kept so that the embedding, not the prover, decides that the reads
fail. -/
def ClassBoundFsmTransition.call (cb : ClassBoundFsmTransition)
    (cache : EqCache) : Except PyExc (SqlExpr × EqCache) :=
  if classBoundAssignedAttrs.contains "_sa_fsm_sqla_handle" then
    if classBoundAssignedAttrs.contains "_sa_fsm_meta" then
      match cb.intendedCall cache with
      | some r => .ok r
      | none => .error .assertionError
    else .error (.attributeError "_sa_fsm_meta")
  else .error (.attributeError "_sa_fsm_sqla_handle")

/-- Embeds ClassBoundFsmTransition.is_ as frozen (transition.py:67-74):
the boolean branch calls self(), inheriting the AttributeError of
__call__; the non-boolean branch is intact: it warns and then returns
the Python literal False without touching the cache. -/
def ClassBoundFsmTransition.isCmp (cb : ClassBoundFsmTransition)
    (cache : EqCache) (value : PyValue) :
    Except PyExc (List String × IsResult × EqCache) :=
  match value with
  | .bool b =>
    (cb.call cache).map fun pc => ([], .expr (.isExpr pc.1 b), pc.2)
  | _ => .ok (["Unexpected is_ argument"], .falseLiteral, cache)

/-- Modelled from the spec: the handler shape of the bound module (absent
from src).  Spec section 6: either a single callable (record, args) or a
multi-source dispatcher mapping a literal source-state label to a callable
of the same shape.  A callable may rewrite the raw state value of the
record and produces an arbitrary result. -/
inductive Handler (Args Result : Type) where
  | single (f : FsmRecord → Args → FsmRecord × Result)
  | perSource (entries : List (String × (FsmRecord → Args → FsmRecord × Result)))

/-- Modelled from the spec: the bound FSM meta object
(self._sa_fsm_bound_meta, built by the bound module, absent from src).
It carries the declared sources, target, ordered guard conditions and the
handler of one transition; funcName models func.__name__ of the wrapped
handler used in the InvalidSourceStateError message. -/
structure BoundFSMMeta (Args Result : Type) where
  sources : List String
  target : String
  conditions : List (Args → Bool)
  handler : Handler Args Result
  funcName : String

/-- Modelled from the spec: bound_meta.transition_possible().  Spec
section 4.4: true iff the sources are the wildcard marker or the current
raw value of the record is contained in the sources. -/
def BoundFSMMeta.transition_possible {Args Result : Type}
    (bm : BoundFSMMeta Args Result) (record : FsmRecord) : Bool :=
  bm.sources == [wildcard] || bm.sources.contains record.stateValue

/-- Modelled from the spec: bound_meta.conditions_met(args, kwargs).  Spec
section 4.4: every guard predicate, invoked with the same arguments,
returns true; evaluated in declaration order with short-circuit. -/
def BoundFSMMeta.conditions_met {Args Result : Type}
    (bm : BoundFSMMeta Args Result) (args : Args) : Bool :=
  bm.conditions.all (fun cond => cond args)

/-- Failure of handler dispatch: a multi-source handler with no entry for
the current literal source state. -/
inductive DispatchError where
  | noHandlerForState (label : String)
deriving DecidableEq

/-- Modelled from the spec: bound_meta.to_next_state(args, kwargs).  Spec
section 4.4: a single callable is invoked with the record and the
arguments; a multi-source handler first selects the sub-callable
registered for the current literal source state of the record.  The
handler may rewrite the raw state value and its result is returned. -/
def BoundFSMMeta.to_next_state {Args Result : Type}
    (bm : BoundFSMMeta Args Result) (record : FsmRecord) (args : Args) :
    Except DispatchError (FsmRecord × Result) :=
  match bm.handler with
  | .single f => .ok (f record args)
  | .perSource entries =>
    match entries.lookup record.stateValue with
    | some f => .ok (f record args)
    | none => .error (.noHandlerForState record.stateValue)

/-- Errors raised by InstanceBoundFsmTransition.set: exc
InvalidSourceStateError (naming the current state and the handler) and
exc.PreconditionError, plus the dispatch failure channel of
to_next_state. -/
inductive ExecError where
  | invalidSourceStateError (currentState : String) (funcName : String)
  | preconditionError
  | dispatchFailed (e : DispatchError)
deriving DecidableEq

/-- Modelled from the spec: the validation and dispatch sequence that
spec 4.4 prescribes for execute, and that the body of
InstanceBoundFsmTransition.set (transition.py:100-113) spells out after
its opening attribute reads: raise InvalidSourceStateError unless
transition_possible(), then raise PreconditionError unless
conditions_met(args, kwargs), then return to_next_state(args, kwargs).
In the frozen code those opening reads (self._sa_fsm_bound_meta,
self._sa_fsm_transition_fn) raise AttributeError, making this sequence
unreachable there; see InstanceBoundFsmTransition.set below.  The record
is threaded explicitly: the first component of the output is the record
after the call (unchanged on every error path). -/
def BoundFSMMeta.set {Args Result : Type} (bm : BoundFSMMeta Args Result)
    (record : FsmRecord) (args : Args) :
    FsmRecord × Except ExecError Result :=
  if !bm.transition_possible record then
    (record, .error (.invalidSourceStateError record.stateValue bm.funcName))
  else if !bm.conditions_met args then
    (record, .error .preconditionError)
  else
    match bm.to_next_state record args with
    | .ok (record', result) => (record', .ok result)
    | .error e => (record, .error (.dispatchFailed e))

/-- Modelled from the spec: canProceed of spec 4.4, the conjunction
transition_possible() and conditions_met(args, kwargs), also spelled out
by the body of InstanceBoundFsmTransition.can_proceed
(transition.py:115-119) behind its doomed read of
self._sa_fsm_bound_meta; see InstanceBoundFsmTransition.can_proceed
below for the frozen method.  It reads the record and returns a Bool;
nothing is written. -/
def BoundFSMMeta.can_proceed {Args Result : Type}
    (bm : BoundFSMMeta Args Result) (record : FsmRecord) (args : Args) : Bool :=
  bm.transition_possible record && bm.conditions_met args

/-- Modelled from the spec: matchesCurrentState of spec 4.4, the
comparison of the transition target with the resolved current state of
the record.  The body of InstanceBoundFsmTransition.__call__
(transition.py:95-98) spells it out behind the same doomed read of
self._sa_fsm_bound_meta as the other instance-bound methods. -/
def BoundFSMMeta.matchesCurrentState {Args Result : Type}
    (bm : BoundFSMMeta Args Result) (record : FsmRecord) : Bool :=
  bm.target == record.stateValue

/-- Embeds InstanceBoundFsmTransition of transition.py: __init__
(transition.py:81-93) stores the instance-bound state machine, the
registered transition, the owner class (kept by identity) and the
instance itself; the Python names _sa_fsm_owner_cls and _sa_fsm_self
lose their leading underscore here. -/
structure InstanceBoundFsmTransition where
  state_machine : InstanceBoundStateMachine
  transition : FSMStateTransition
  sa_fsm_owner_cls_uid : Nat
  sa_fsm_self : FsmRecord
deriving DecidableEq

/-- Embeds InstanceBoundFsmTransition.set as frozen
(transition.py:100-113): the body first reads self._sa_fsm_bound_meta
(line 102) and self._sa_fsm_transition_fn (line 103), names assigned
nowhere in src, so the first read raises AttributeError; only if both
reads succeeded would the validation and dispatch sequence run, on
whatever bound meta object the read would have produced (passed here as
bm). -/
def InstanceBoundFsmTransition.set {Args Result : Type}
    (ibt : InstanceBoundFsmTransition) (bm : BoundFSMMeta Args Result)
    (args : Args) :
    Except PyExc (FsmRecord × Except ExecError Result) :=
  if instanceBoundAssignedAttrs.contains "_sa_fsm_bound_meta" then
    if instanceBoundAssignedAttrs.contains "_sa_fsm_transition_fn" then
      .ok (bm.set ibt.sa_fsm_self args)
    else .error (.attributeError "_sa_fsm_transition_fn")
  else .error (.attributeError "_sa_fsm_bound_meta")

/-- Embeds InstanceBoundFsmTransition.can_proceed as frozen
(transition.py:115-119): the body first reads self._sa_fsm_bound_meta
(line 116), assigned nowhere in src, so every call raises
AttributeError; only if the read succeeded would transition_possible()
and conditions_met(args, kwargs) be evaluated on the produced bound meta
(passed here as bm). -/
def InstanceBoundFsmTransition.can_proceed {Args Result : Type}
    (ibt : InstanceBoundFsmTransition) (bm : BoundFSMMeta Args Result)
    (args : Args) : Except PyExc Bool :=
  if instanceBoundAssignedAttrs.contains "_sa_fsm_bound_meta" then
    .ok (bm.can_proceed ibt.sa_fsm_self args)
  else .error (.attributeError "_sa_fsm_bound_meta")

/-! ### Lemmas about the registry operations -/

/-- A label fails is_valid_literal_state exactly when it is the wildcard
marker. -/
theorem is_valid_literal_state_eq_false (label : String) :
    is_valid_literal_state label = false ↔ label = wildcard := by
  simp [is_valid_literal_state]

/-- How register_state changes the states dict: lookup of the registered
label now returns the returned State object, every other lookup is
unchanged. -/
theorem register_state_lookup (fsm : FiniteStateMachine) (label a : String) :
    ((fsm.register_state label).2).states.lookup a =
      if a = label then some (fsm.register_state label).1
      else fsm.states.lookup a := by
  unfold FiniteStateMachine.register_state
  cases h : fsm.states.lookup label with
  | some s =>
    simp only [h]
    by_cases ha : a = label <;> simp [ha, h]
  | none =>
    simp only [h, List.lookup_append]
    by_cases ha : a = label
    · simp [ha, h, List.lookup_cons]
    · have hb : (a == label) = false := beq_eq_false_iff_ne.mpr ha
      simp [ha, List.lookup_cons, hb]

/-- register_state touches only the states dict and the allocation
counter: the other registry fields are unchanged. -/
theorem register_state_fields (fsm : FiniteStateMachine) (label : String) :
    ((fsm.register_state label).2).column_name = fsm.column_name ∧
    ((fsm.register_state label).2).uid = fsm.uid ∧
    ((fsm.register_state label).2).transitions = fsm.transitions ∧
    ((fsm.register_state label).2).table_class = fsm.table_class ∧
    ((fsm.register_state label).2).fsm_column = fsm.fsm_column := by
  unfold FiniteStateMachine.register_state
  cases h : fsm.states.lookup label <;> simp [h]

/-- The state-registration fold performed by register_transition. -/
def regFold (fsm : FiniteStateMachine) (labels : List String) :
    FiniteStateMachine :=
  labels.foldl
    (fun acc a_state =>
      if is_valid_literal_state a_state then (acc.register_state a_state).2 else acc)
    fsm

/-- One step of the state-registration fold. -/
theorem regFold_cons (fsm : FiniteStateMachine) (l : String)
    (rest : List String) :
    regFold fsm (l :: rest) =
      regFold (if is_valid_literal_state l then (fsm.register_state l).2 else fsm)
        rest :=
  rfl

/-- The fold never touches the lookup of an invalid (wildcard) label. -/
theorem regFold_lookup_invalid (labels : List String) (fsm : FiniteStateMachine)
    (a : String) (ha : is_valid_literal_state a = false) :
    (regFold fsm labels).states.lookup a = fsm.states.lookup a := by
  induction labels generalizing fsm with
  | nil => rfl
  | cons l rest ih =>
    rw [regFold_cons]
    cases hv : is_valid_literal_state l with
    | false => rw [if_neg (by simp)]; exact ih fsm
    | true =>
      have hne : a ≠ l := by
        intro hEq
        rw [hEq, hv] at ha
        exact absurd ha (by simp)
      rw [if_pos rfl, ih ((fsm.register_state l).2), register_state_lookup,
        if_neg hne]

/-- The fold only grows the states dict: a label already present stays
present. -/
theorem regFold_lookup_mono (labels : List String) (fsm : FiniteStateMachine)
    (a : String) (ha : (fsm.states.lookup a).isSome) :
    ((regFold fsm labels).states.lookup a).isSome := by
  induction labels generalizing fsm with
  | nil => exact ha
  | cons l rest ih =>
    rw [regFold_cons]
    cases hv : is_valid_literal_state l with
    | false => rw [if_neg (by simp)]; exact ih fsm ha
    | true =>
      rw [if_pos rfl]
      refine ih _ ?_
      rw [register_state_lookup]
      by_cases hel : a = l <;> simp [hel, ha]

/-- After the fold, every valid literal among the folded labels is
present in the states dict. -/
theorem regFold_lookup_mem (labels : List String) (fsm : FiniteStateMachine)
    (a : String) (hmem : a ∈ labels) (hv : is_valid_literal_state a = true) :
    ((regFold fsm labels).states.lookup a).isSome := by
  induction labels generalizing fsm with
  | nil => cases hmem
  | cons l rest ih =>
    rw [regFold_cons]
    rcases List.mem_cons.mp hmem with hEq | hrest
    · subst hEq
      rw [if_pos hv]
      refine regFold_lookup_mono rest _ a ?_
      rw [register_state_lookup, if_pos rfl]
      rfl
    · cases hvl : is_valid_literal_state l with
      | false => rw [if_neg (by simp)]; exact ih fsm hrest
      | true => rw [if_pos rfl]; exact ih _ hrest

/-- The fold leaves every registry field other than states and the
allocation counter unchanged. -/
theorem regFold_fields (labels : List String) (fsm : FiniteStateMachine) :
    (regFold fsm labels).column_name = fsm.column_name ∧
    (regFold fsm labels).uid = fsm.uid ∧
    (regFold fsm labels).transitions = fsm.transitions ∧
    (regFold fsm labels).table_class = fsm.table_class ∧
    (regFold fsm labels).fsm_column = fsm.fsm_column := by
  induction labels generalizing fsm with
  | nil => exact ⟨rfl, rfl, rfl, rfl, rfl⟩
  | cons l rest ih =>
    rw [regFold_cons]
    cases hv : is_valid_literal_state l with
    | false => rw [if_neg (by simp)]; exact ih fsm
    | true =>
      rw [if_pos rfl]
      obtain ⟨h1, h2, h3, h4, h5⟩ := ih (fsm.register_state l).2
      obtain ⟨g1, g2, g3, g4, g5⟩ := register_state_fields fsm l
      exact ⟨h1.trans g1, h2.trans g2, h3.trans g3, h4.trans g4, h5.trans g5⟩

/-- The registry produced by register_transition: the fold result with the
new transition appended. -/
theorem register_transition_unfold (fsm : FiniteStateMachine) (m : FSMMeta) :
    (fsm.register_transition m).2 =
      { regFold fsm (m.sources ++ [m.target]) with
        transitions :=
          (regFold fsm (m.sources ++ [m.target])).transitions ++
            [(fsm.register_transition m).1] } :=
  rfl

/-- register_transition appends exactly the returned transition object at
the end of the transition list. -/
theorem register_transition_transitions (fsm : FiniteStateMachine)
    (m : FSMMeta) :
    (fsm.register_transition m).2.transitions =
      fsm.transitions ++ [(fsm.register_transition m).1] := by
  rw [register_transition_unfold]
  exact congrArg (fun l => l ++ _) (regFold_fields _ fsm).2.2.1

/-- register_transition preserves the column name and the identity of the
registry. -/
theorem register_transition_fields (fsm : FiniteStateMachine) (m : FSMMeta) :
    (fsm.register_transition m).2.column_name = fsm.column_name ∧
    (fsm.register_transition m).2.uid = fsm.uid ∧
    (fsm.register_transition m).2.fsm_column = fsm.fsm_column := by
  rw [register_transition_unfold]
  obtain ⟨h1, h2, _, _, h5⟩ := regFold_fields (m.sources ++ [m.target]) fsm
  exact ⟨h1, h2, h5⟩

/-- The states dict after register_transition is the states dict after the
registration fold. -/
theorem register_transition_states (fsm : FiniteStateMachine) (m : FSMMeta) :
    (fsm.register_transition m).2.states =
      (regFold fsm (m.sources ++ [m.target])).states :=
  rfl

/-- Appending a fresh key keeps the keys of the states dict free of
duplicates. -/
theorem register_state_keys_nodup (fsm : FiniteStateMachine) (label : String)
    (h : (fsm.states.map Prod.fst).Nodup) :
    (((fsm.register_state label).2).states.map Prod.fst).Nodup := by
  unfold FiniteStateMachine.register_state
  cases hl : fsm.states.lookup label with
  | some s => simpa using h
  | none =>
    have hnotmem : label ∉ fsm.states.map Prod.fst := by
      rw [List.lookup_eq_none_iff] at hl
      intro hmem
      obtain ⟨p, hp, hfst⟩ := List.mem_map.mp hmem
      have := hl p hp
      rw [hfst] at this
      simp at this
    simp [List.nodup_append, h, hnotmem]

/-- An arbitrary sequence of register_state calls, in order. -/
def registerStates (fsm : FiniteStateMachine) (labels : List String) :
    FiniteStateMachine :=
  labels.foldl (fun acc l => (acc.register_state l).2) fsm

/-- Any sequence of register_state calls keeps the keys of the states
dict free of duplicates. -/
theorem registerStates_keys_nodup (labels : List String)
    (fsm : FiniteStateMachine) (h : (fsm.states.map Prod.fst).Nodup) :
    ((registerStates fsm labels).states.map Prod.fst).Nodup := by
  induction labels generalizing fsm with
  | nil => exact h
  | cons l rest ih =>
    exact ih (fsm.register_state l).2 (register_state_keys_nodup fsm l h)

/-- In an association list with duplicate-free keys, at most one entry
carries any given key. -/
theorem nodup_keys_filter_le_one {ν : Type} (l : List (String × ν))
    (h : (l.map Prod.fst).Nodup) (k : String) :
    (l.filter (fun p => p.1 == k)).length ≤ 1 := by
  induction l with
  | nil => simp
  | cons p rest ih =>
    rw [List.map_cons, List.nodup_cons] at h
    cases hpk : p.1 == k with
    | false =>
      simp only [List.filter_cons, hpk, Bool.false_eq_true, if_false]
      exact ih h.2
    | true =>
      have hk : p.1 = k := by simpa using hpk
      have : rest.filter (fun q => q.1 == k) = [] := by
        rw [List.filter_eq_nil_iff]
        intro q hq
        simp only [beq_iff_eq]
        intro hqk
        exact h.1 (List.mem_map.mpr ⟨q, hq, by rw [hqk, hk]⟩)
      simp [List.filter_cons, hpk, this]

/-- A successful association-list lookup returns a stored entry. -/
theorem lookup_mem {κ ν : Type} [BEq κ] [LawfulBEq κ] {l : List (κ × ν)}
    {k : κ} {v : ν} (h : l.lookup k = some v) : (k, v) ∈ l := by
  obtain ⟨l₁, l₂, rfl, -⟩ := List.lookup_eq_some_iff.mp h
  exact List.mem_append.mpr (Or.inr (List.mem_cons_self _ _))

/-- register_state on a label already present returns the stored State and
leaves the registry unchanged. -/
theorem register_state_of_lookup_some (fsm : FiniteStateMachine)
    (label : String) (s : FSMState) (h : fsm.states.lookup label = some s) :
    fsm.register_state label = (s, fsm) := by
  unfold FiniteStateMachine.register_state
  rw [h]

/-- FsmTransition.get on an owner whose registry handle is already stored:
no construction, only register_transition on the stored registry. -/
theorem fsmTransitionGet_some (m : FSMMeta) (tc : TableClass)
    (fsm : FiniteStateMachine) (u : Nat) :
    FsmTransition.get m ⟨tc, some fsm⟩ u =
      .ok ((fsm.register_transition m).1,
        ⟨tc, some (fsm.register_transition m).2⟩) :=
  rfl

/-- n sequential accesses starting from a stored registry keep the handle
populated and add exactly n transitions. -/
theorem accessTimes_some (m : FSMMeta) (u : Nat) :
    ∀ (n : Nat) (tc : TableClass) (fsm : FiniteStateMachine),
    ∃ fsm', FsmTransition.accessTimes m ⟨tc, some fsm⟩ u n = .ok ⟨tc, some fsm'⟩ ∧
      fsm'.transitions.length = fsm.transitions.length + n := by
  intro n
  induction n with
  | zero => intro tc fsm; exact ⟨fsm, rfl, rfl⟩
  | succ k ih =>
    intro tc fsm
    obtain ⟨fsm', hrun, hlen⟩ := ih tc (fsm.register_transition m).2
    refine ⟨fsm', ?_, ?_⟩
    · show (FsmTransition.get m ⟨tc, some fsm⟩ u).bind _ = _
      rw [fsmTransitionGet_some]
      exact hrun
    · rw [hlen, register_transition_transitions, List.length_append]
      simp [Nat.add_assoc, Nat.add_comm 1 k]

/-! ### The claims -/

/-- The spec-intended execute sequence (spec 4.4): it first checks
transition_possible and fails with InvalidSourceStateError naming the
current state and the handler, without evaluating guard conditions (the
outcome is the same for every condition list), without invoking any
handler (the outcome is the same for every handler) and with the raw
state attribute of the record unchanged; then it checks the guard
conditions and fails with PreconditionError, again independently of the
handler and with the record unchanged; only when both checks pass does
it dispatch to the handler (single callable, or the per-source entry of
the current literal state), propagating the handler result unchanged. -/
theorem boundMetaSet_validation {Args Result : Type}
    (bm : BoundFSMMeta Args Result) (record : FsmRecord) (args : Args) :
    (bm.transition_possible record = false →
      ∀ (conds : List (Args → Bool)) (h : Handler Args Result),
        BoundFSMMeta.set { bm with conditions := conds, handler := h } record
            args =
          (record,
            .error (.invalidSourceStateError record.stateValue bm.funcName)))
  ∧ (bm.transition_possible record = true → bm.conditions_met args = false →
      ∀ (h : Handler Args Result),
        BoundFSMMeta.set { bm with handler := h } record args =
          (record, .error .preconditionError))
  ∧ (bm.transition_possible record = true → bm.conditions_met args = true →
      ∀ (f : FsmRecord → Args → FsmRecord × Result), bm.handler = .single f →
        bm.set record args = ((f record args).1, .ok (f record args).2))
  ∧ (bm.transition_possible record = true → bm.conditions_met args = true →
      ∀ (entries : List (String × (FsmRecord → Args → FsmRecord × Result)))
        (f : FsmRecord → Args → FsmRecord × Result),
        bm.handler = .perSource entries →
        entries.lookup record.stateValue = some f →
        bm.set record args = ((f record args).1, .ok (f record args).2)) := by
  refine ⟨?_, ?_, ?_, ?_⟩
  · intro hp conds h
    have hp' : BoundFSMMeta.transition_possible
        { bm with conditions := conds, handler := h } record = false := hp
    simp [BoundFSMMeta.set, hp']
  · intro hp hc h
    have hp' : BoundFSMMeta.transition_possible { bm with handler := h }
        record = true := hp
    have hc' : BoundFSMMeta.conditions_met { bm with handler := h } args =
        false := hc
    simp [BoundFSMMeta.set, hp', hc']
  · intro hp hc f hf
    simp [BoundFSMMeta.set, hp, hc, BoundFSMMeta.to_next_state, hf]
  · intro hp hc entries f hh hl
    simp [BoundFSMMeta.set, hp, hc, BoundFSMMeta.to_next_state, hh, hl]

/-- Concrete check of the intended sequence: a transition from source
draft invoked on a record in state archived fails with
InvalidSourceStateError and leaves the record unchanged. -/
theorem boundMetaSet_validation_example :
    BoundFSMMeta.set
        { sources := ["draft"], target := "published", conditions := [],
          handler := Handler.single (fun _ _ => (⟨"published"⟩, (7 : Nat))),
          funcName := "publish" }
        ⟨"archived"⟩ (0 : Nat) =
      (⟨"archived"⟩,
        .error (.invalidSourceStateError "archived" "publish")) :=
  (boundMetaSet_validation
    { sources := ["draft"], target := "published", conditions := [],
      handler := Handler.single (fun _ _ => (⟨"published"⟩, (7 : Nat))),
      funcName := "publish" }
    ⟨"archived"⟩ 0).1 rfl []
    (Handler.single (fun _ _ => (⟨"published"⟩, (7 : Nat))))

/-- The spec-intended canProceed (spec 4.4) returns true exactly when the
transition is possible from the current state of the record (wildcard
sources, or the raw value among the sources) and every guard condition
evaluated with the given arguments returns true.  It returns a Bool
only: no updated record or registry is produced, so it mutates
nothing. -/
theorem boundMetaCanProceed_iff {Args Result : Type}
    (bm : BoundFSMMeta Args Result) (record : FsmRecord) (args : Args) :
    bm.can_proceed record args = true ↔
      ((bm.sources = [wildcard] ∨ record.stateValue ∈ bm.sources) ∧
        ∀ cond ∈ bm.conditions, cond args = true) := by
  simp [BoundFSMMeta.can_proceed, BoundFSMMeta.transition_possible,
    BoundFSMMeta.conditions_met]

/-- Sample FSM column used by concrete witnesses. -/
def stateCol : Column := ⟨"state", true⟩

/-- Sample non-FSM column used by concrete witnesses. -/
def noteCol : Column := ⟨"note", false⟩

/-- Second sample FSM column used by concrete witnesses. -/
def extraCol : Column := ⟨"state2", true⟩

/-- Sample table class with exactly one FSM column. -/
def sampleTable : TableClass := ⟨0, [noteCol, stateCol]⟩

/-- Sample registry over sampleTable, as built by init. -/
def sampleFSM : FiniteStateMachine :=
  ⟨sampleTable, stateCol, "state", [], [], 0, 0⟩

/-- Sample transition declaration used by concrete witnesses. -/
def sampleMeta : FSMMeta := ⟨["draft", "*"], "published", [], 0⟩

/-- The spec-intended predicate builder (spec 4.3) delegates to the
memoized predicate cache with key (FSM state column, target label), and
the returned predicate is the equality filter of the state column
against the target value (provided the cache only memoizes values of
that computation and the target passes the assertion). -/
theorem intendedCall_predicate (cb : ClassBoundFsmTransition)
    (cache : EqCache) :
    (cb.intendedCall cache =
      sql_equality_cache_get cache
        (cb.state_machine.fsm_column, cb.transition.meta.target))
  ∧ ((∀ p ∈ cache.entries, sql_equality p.1 = some p.2) →
      cb.transition.meta.target ≠ "" →
      (cb.intendedCall cache).map Prod.fst =
        some (.eqExpr cb.state_machine.fsm_column cb.transition.meta.target)) := by
  constructor
  · rfl
  · intro hcoh htgt
    unfold ClassBoundFsmTransition.intendedCall sql_equality_cache_get
      DictCache.get_value
    cases hl : cache.entries.lookup
        (cb.state_machine.fsm_column, cb.transition.meta.target) with
    | some v =>
      have hv := hcoh _ (lookup_mem hl)
      rw [sql_equality, if_neg htgt] at hv
      simp at hv
      simp [← hv]
    | none =>
      simp [sql_equality, htgt]

/-- Concrete check of the intended predicate builder: on an empty cache,
the intended call for a transition targeting published over the sample
registry produces the equality filter of the state column against
published. -/
theorem intendedCall_predicate_example :
    ((ClassBoundFsmTransition.intendedCall ⟨0, sampleFSM, ⟨0, sampleMeta⟩⟩
        ⟨[]⟩).map Prod.fst) = some (.eqExpr stateCol "published") :=
  (intendedCall_predicate ⟨0, sampleFSM, ⟨0, sampleMeta⟩⟩ ⟨[]⟩).2
    (by intro p hp; cases hp) (by decide)

/-- Claim C4: resolving the FSM state attribute at registry construction
fails with SetupError when the table declares zero FSM columns, fails
with SetupError (carrying the matches) when it declares more than one,
and with exactly one declared FSM column construction succeeds, storing
the column and its name; the stored column name survives every later
registration on the registry. -/
theorem claim4_setup (tc : TableClass) (u : Nat) :
    (tc.columns.filter (fun col => col.isFSMField) = [] →
      FiniteStateMachine.init tc u = .error .noFSMField)
  ∧ (∀ c rest, tc.columns.filter (fun col => col.isFSMField) = c :: rest →
      rest ≠ [] →
      FiniteStateMachine.init tc u = .error (.multipleFSMFields (c :: rest)))
  ∧ (∀ c, tc.columns.filter (fun col => col.isFSMField) = [c] →
      FiniteStateMachine.init tc u =
        .ok ⟨tc, c, c.name, [], [], u, 0⟩)
  ∧ (∀ (fsm : FiniteStateMachine) (label : String),
      ((fsm.register_state label).2).column_name = fsm.column_name)
  ∧ (∀ (fsm : FiniteStateMachine) (m : FSMMeta),
      ((fsm.register_transition m).2).column_name = fsm.column_name) := by
  refine ⟨?_, ?_, ?_, ?_, ?_⟩
  · intro h
    unfold FiniteStateMachine.init find_fsm_column
    rw [h]
    rfl
  · intro c rest h hne
    unfold FiniteStateMachine.init find_fsm_column
    rw [h]
    cases rest with
    | nil => exact absurd rfl hne
    | cons r rs => rfl
  · intro c h
    unfold FiniteStateMachine.init find_fsm_column
    rw [h]
    rfl
  · intro fsm label
    exact (register_state_fields fsm label).1
  · intro fsm m
    exact (register_transition_fields fsm m).1

/-- Witness for claim C4: a table with only the note column fails, a
table with two FSM columns fails naming both, and sampleTable (exactly
one FSM column) builds a registry storing the column name state. -/
theorem claim4_setup_witness :
    FiniteStateMachine.init ⟨1, [noteCol]⟩ 0 = .error .noFSMField
  ∧ FiniteStateMachine.init ⟨2, [stateCol, extraCol]⟩ 0 =
      .error (.multipleFSMFields [stateCol, extraCol])
  ∧ FiniteStateMachine.init sampleTable 0 =
      .ok ⟨sampleTable, stateCol, "state", [], [], 0, 0⟩ :=
  ⟨(claim4_setup ⟨1, [noteCol]⟩ 0).1 (by decide),
   (claim4_setup ⟨2, [stateCol, extraCol]⟩ 0).2.1 stateCol [extraCol]
     (by decide) (by simp),
   (claim4_setup sampleTable 0).2.2.1 stateCol (by decide)⟩

/-- Claim C5: register_state is idempotent: a second sequential call with
the same label returns the very same State object (uid included) and
leaves the registry untouched; and starting from duplicate-free state
keys, any sequence of register_state calls keeps at most one stored
State entry per label. -/
theorem claim5_register_state_idempotent (fsm : FiniteStateMachine)
    (label : String) (labels : List String)
    (h : (fsm.states.map Prod.fst).Nodup) :
    ((fsm.register_state label).2.register_state label).1 =
      (fsm.register_state label).1
  ∧ ((fsm.register_state label).2.register_state label).2 =
      (fsm.register_state label).2
  ∧ ∀ l, ((registerStates fsm labels).states.filter
      (fun p => p.1 == l)).length ≤ 1 := by
  have hl : (fsm.register_state label).2.states.lookup label =
      some (fsm.register_state label).1 := by
    rw [register_state_lookup]
    simp
  have h2 := register_state_of_lookup_some _ label _ hl
  refine ⟨?_, ?_, ?_⟩
  · rw [h2]
  · rw [h2]
  · intro l
    exact nodup_keys_filter_le_one _ (registerStates_keys_nodup labels fsm h) l

/-- Witness for claim C5: registering draft twice on the sample registry
returns the identical State object both times, and after the sequence
draft, review, draft the states dict holds a single entry for draft. -/
theorem claim5_register_state_idempotent_witness :
    ((sampleFSM.register_state "draft").2.register_state "draft").1 =
      (sampleFSM.register_state "draft").1
  ∧ ((sampleFSM.register_state "draft").2.register_state "draft").2 =
      (sampleFSM.register_state "draft").2
  ∧ ((registerStates sampleFSM ["draft", "review", "draft"]).states.filter
      (fun p => p.1 == "draft")).length ≤ 1 := by
  have h := claim5_register_state_idempotent sampleFSM "draft"
    ["draft", "review", "draft"] (by simp [sampleFSM])
  exact ⟨h.1, h.2.1, h.2.2 "draft"⟩

/-- Claim C6: after register_transition, every literal label among the
sources and the target of the transition has an entry in the states dict,
while the lookup of the wildcard marker is exactly what it was before the
call: the wildcard is never registered as a state. -/
theorem claim6_register_transition_states (fsm : FiniteStateMachine)
    (m : FSMMeta) :
    (∀ label, label ∈ m.sources ++ [m.target] →
      is_valid_literal_state label = true →
      (((fsm.register_transition m).2).states.lookup label).isSome = true)
  ∧ ((fsm.register_transition m).2.states.lookup wildcard =
      fsm.states.lookup wildcard) := by
  constructor
  · intro label hmem hv
    rw [register_transition_states]
    exact regFold_lookup_mem _ fsm label hmem hv
  · rw [register_transition_states]
    exact regFold_lookup_invalid _ fsm wildcard
      (by simp [is_valid_literal_state])

/-- Witness for claim C6: registering the sample transition (sources
draft and the wildcard, target published) on the empty sample registry
stores draft and published but not the wildcard. -/
theorem claim6_register_transition_states_witness :
    (((sampleFSM.register_transition sampleMeta).2).states.lookup
      "draft").isSome = true
  ∧ (((sampleFSM.register_transition sampleMeta).2).states.lookup
      "published").isSome = true
  ∧ ((sampleFSM.register_transition sampleMeta).2.states.lookup wildcard =
      sampleFSM.states.lookup wildcard) :=
  ⟨(claim6_register_transition_states sampleFSM sampleMeta).1 "draft"
      (by simp [sampleMeta]) rfl,
   (claim6_register_transition_states sampleFSM sampleMeta).1 "published"
      (by simp [sampleMeta]) rfl,
   (claim6_register_transition_states sampleFSM sampleMeta).2⟩

/-- Claim C7: the first access of an annotated attribute on a type
constructs the registry (via init, with the freshly allocated identity)
and stores it on the type, while an access on a type that already stores
a registry returns that stored registry extended by register_transition:
the outcome does not depend on the fresh identity that a construction
would have consumed, and the identity of the stored registry is
preserved, so no second registry is ever constructed. -/
theorem claim7_registry_reuse (m : FSMMeta) (tc : TableClass)
    (fsm : FiniteStateMachine) (u u' : Nat) :
    (FsmTransition.get m ⟨tc, none⟩ u =
      (FiniteStateMachine.init tc u).map fun root =>
        ((root.register_transition m).1,
          ⟨tc, some (root.register_transition m).2⟩))
  ∧ (FsmTransition.get m ⟨tc, some fsm⟩ u =
      .ok ((fsm.register_transition m).1,
        ⟨tc, some (fsm.register_transition m).2⟩))
  ∧ (FsmTransition.get m ⟨tc, some fsm⟩ u = FsmTransition.get m ⟨tc, some fsm⟩ u')
  ∧ ((fsm.register_transition m).2.uid = fsm.uid) :=
  ⟨rfl, fsmTransitionGet_some m tc fsm u, rfl,
    (register_transition_fields fsm m).2.1⟩

/-- The spec-intended boolean comparison (spec 4.3) applied to a boolean
argument returns the boolean comparison built on the intended predicate;
applied to any non-boolean argument it emits one warning and returns the
Python literal False, leaving the cache untouched and producing a result
in every case. -/
theorem intendedIsCmp_comparison (cb : ClassBoundFsmTransition)
    (cache : EqCache) :
    (∀ (b : Bool) (p : SqlExpr) (c' : EqCache),
      cb.intendedCall cache = some (p, c') →
      cb.intendedIsCmp cache (.bool b) = some ([], .expr (.isExpr p b), c'))
  ∧ (∀ v : PyValue, (∀ b, v ≠ .bool b) →
      cb.intendedIsCmp cache v =
        some (["Unexpected is_ argument"], .falseLiteral, cache)) := by
  constructor
  · intro b p c' h
    simp [ClassBoundFsmTransition.intendedIsCmp, h]
  · intro v hv
    cases v with
    | bool b => exact absurd rfl (hv b)
    | str s => rfl
    | int n => rfl

/-- Concrete check of the intended comparison on the sample class-bound
transition with an empty cache: true yields the boolean comparison of
the equality filter, and the string published warns and returns
False. -/
theorem intendedIsCmp_example :
    ClassBoundFsmTransition.intendedIsCmp ⟨0, sampleFSM, ⟨0, sampleMeta⟩⟩ ⟨[]⟩
        (.bool true) =
      some ([], .expr (.isExpr (.eqExpr stateCol "published") true),
        ⟨[((stateCol, "published"), .eqExpr stateCol "published")]⟩)
  ∧ ClassBoundFsmTransition.intendedIsCmp ⟨0, sampleFSM, ⟨0, sampleMeta⟩⟩ ⟨[]⟩
        (.str "published") =
      some (["Unexpected is_ argument"], .falseLiteral, ⟨[]⟩) :=
  ⟨(intendedIsCmp_comparison ⟨0, sampleFSM, ⟨0, sampleMeta⟩⟩ ⟨[]⟩).1 true
      (.eqExpr stateCol "published")
      ⟨[((stateCol, "published"), .eqExpr stateCol "published")]⟩ rfl,
   (intendedIsCmp_comparison ⟨0, sampleFSM, ⟨0, sampleMeta⟩⟩ ⟨[]⟩).2
      (.str "published") (by intro b; simp)⟩

/-- Claim C9: get_state fails with the key-not-found error when the label
was never registered and returns the stored State when it was; hence
resolving the current state of an instance fails with that error when
the raw value of the record was never registered as a literal state. -/
theorem claim9_get_state (fsm : FiniteStateMachine) (label : String)
    (ib : InstanceBoundStateMachine) :
    (fsm.states.lookup label = none →
      fsm.get_state label = .error (.keyNotFound label))
  ∧ (∀ s, fsm.states.lookup label = some s → fsm.get_state label = .ok s)
  ∧ (ib.cls_fsm.states.lookup ib.current_raw_value = none →
      ib.current_state = .error (.keyNotFound ib.current_raw_value)) := by
  refine ⟨?_, ?_, ?_⟩
  · intro h
    unfold FiniteStateMachine.get_state
    rw [h]
  · intro s h
    unfold FiniteStateMachine.get_state
    rw [h]
  · intro h
    unfold InstanceBoundStateMachine.current_state
      FiniteStateMachine.get_state
    rw [h]

/-- Witness for claim C9: the empty sample registry fails get_state on
review; after registering draft it returns the stored draft State; an
instance holding the unregistered raw value review fails current_state
with the key-not-found error. -/
theorem claim9_get_state_witness :
    sampleFSM.get_state "review" = .error (.keyNotFound "review")
  ∧ (sampleFSM.register_state "draft").2.get_state "draft" =
      .ok ⟨0, "draft", 0⟩
  ∧ InstanceBoundStateMachine.current_state ⟨sampleFSM, ⟨"review"⟩⟩ =
      .error (.keyNotFound "review") :=
  ⟨(claim9_get_state sampleFSM "review" ⟨sampleFSM, ⟨"review"⟩⟩).1 rfl,
   (claim9_get_state (sampleFSM.register_state "draft").2 "draft"
      ⟨sampleFSM, ⟨"review"⟩⟩).2.1 ⟨0, "draft", 0⟩ rfl,
   (claim9_get_state sampleFSM "review" ⟨sampleFSM, ⟨"review"⟩⟩).2.2 rfl⟩

/-- Claim C10: every access of an annotated attribute on a type with a
stored registry calls register_transition and appends one new transition
object at the end of the transition list, so after n sequential accesses
of one declaration the transition list holds n more entries. -/
theorem claim10_access_appends (m : FSMMeta) (tc : TableClass)
    (fsm : FiniteStateMachine) (u : Nat) (n : Nat) :
    (∀ t owner', FsmTransition.get m ⟨tc, some fsm⟩ u = .ok (t, owner') →
      owner'.handle = some (fsm.register_transition m).2 ∧
      (fsm.register_transition m).2.transitions = fsm.transitions ++ [t])
  ∧ (∃ fsm', FsmTransition.accessTimes m ⟨tc, some fsm⟩ u n =
      .ok ⟨tc, some fsm'⟩ ∧
      fsm'.transitions.length = fsm.transitions.length + n) := by
  constructor
  · intro t owner' hget
    rw [fsmTransitionGet_some] at hget
    have hpair : (t, owner') =
        ((fsm.register_transition m).1,
          (⟨tc, some (fsm.register_transition m).2⟩ : OwnerClass)) := by
      exact (Except.ok.injEq _ _).mp hget.symm
    have ht : t = (fsm.register_transition m).1 :=
      congrArg Prod.fst hpair
    have ho : owner' =
        (⟨tc, some (fsm.register_transition m).2⟩ : OwnerClass) :=
      congrArg Prod.snd hpair
    subst ht ho
    exact ⟨rfl, register_transition_transitions fsm m⟩
  · exact accessTimes_some m u n tc fsm

/-- Witness for claim C10: one access of the sample declaration on the
sample registry appends exactly the returned transition object. -/
theorem claim10_access_appends_witness :
    (⟨sampleTable,
        some (sampleFSM.register_transition sampleMeta).2⟩ : OwnerClass).handle =
      some (sampleFSM.register_transition sampleMeta).2
  ∧ (sampleFSM.register_transition sampleMeta).2.transitions =
      sampleFSM.transitions ++ [(sampleFSM.register_transition sampleMeta).1] :=
  (claim10_access_appends sampleMeta sampleTable sampleFSM 0 0).1
    (sampleFSM.register_transition sampleMeta).1
    ⟨sampleTable, some (sampleFSM.register_transition sampleMeta).2⟩ rfl

/-- The frozen class-bound call always fails: the read of
_sa_fsm_sqla_handle is checked against the assigned attribute names and
raises AttributeError. -/
theorem frozenCall_attr_error (cb : ClassBoundFsmTransition)
    (cache : EqCache) :
    cb.call cache = .error (.attributeError "_sa_fsm_sqla_handle") := by
  have h : "_sa_fsm_sqla_handle" ∉ classBoundAssignedAttrs := by decide
  simp [ClassBoundFsmTransition.call, h]

/-- Claim C1 (code bug): the frozen set method never performs the
validation and dispatch sequence the claim describes: for every
instance-bound transition, bound meta, record state and argument list it
raises AttributeError naming _sa_fsm_bound_meta, an attribute assigned
nowhere in src, before any source-state check, guard evaluation or
handler dispatch.  The claimed sequence is the intent of spec 4.4 and
holds of the spec-modelled sequence, see boundMetaSet_validation. -/
theorem claim1_set_raises_attribute_error {Args Result : Type}
    (ibt : InstanceBoundFsmTransition) (bm : BoundFSMMeta Args Result)
    (args : Args) :
    ibt.set bm args = .error (.attributeError "_sa_fsm_bound_meta") := by
  have h : "_sa_fsm_bound_meta" ∉ instanceBoundAssignedAttrs := by decide
  simp [InstanceBoundFsmTransition.set, h]

/-- Claim C2 (code bug): the frozen can_proceed never computes
transition_possible AND conditions_met: for every instance-bound
transition, bound meta and argument list it raises AttributeError naming
_sa_fsm_bound_meta, an attribute assigned nowhere in src.  The claimed
conjunction is the intent of spec 4.4 and holds of the spec-modelled
operation, see boundMetaCanProceed_iff. -/
theorem claim2_can_proceed_raises_attribute_error {Args Result : Type}
    (ibt : InstanceBoundFsmTransition) (bm : BoundFSMMeta Args Result)
    (args : Args) :
    ibt.can_proceed bm args = .error (.attributeError "_sa_fsm_bound_meta") := by
  have h : "_sa_fsm_bound_meta" ∉ instanceBoundAssignedAttrs := by decide
  simp [InstanceBoundFsmTransition.can_proceed, h]

/-- Claim C3 (code bug): the frozen class-bound call never returns the
memoized predicate: for every class-bound transition and cache it raises
AttributeError naming _sa_fsm_sqla_handle, an attribute assigned nowhere
in src, before the predicate cache is reached.  The claimed delegation
is the intent of spec 4.3 and holds of the spec-modelled construction,
see intendedCall_predicate. -/
theorem claim3_call_raises_attribute_error (cb : ClassBoundFsmTransition)
    (cache : EqCache) :
    cb.call cache = .error (.attributeError "_sa_fsm_sqla_handle") :=
  frozenCall_attr_error cb cache

/-- Claim C8 (code bug): with a boolean argument the frozen is_ does not
return the boolean comparison of the predicate: it raises AttributeError
through self() on the never-assigned _sa_fsm_sqla_handle.  The
non-boolean half of the claim is faithful to the frozen code: every
non-boolean argument (both remaining constructors) emits one warning and
returns the Python literal False without raising, the cache untouched;
the boolean half is the intent of spec 4.3, see
intendedIsCmp_comparison. -/
theorem claim8_is_raises_attribute_error (cb : ClassBoundFsmTransition)
    (cache : EqCache) :
    (∀ b : Bool, cb.isCmp cache (.bool b) =
      .error (.attributeError "_sa_fsm_sqla_handle"))
  ∧ (∀ s : String, cb.isCmp cache (.str s) =
      .ok (["Unexpected is_ argument"], .falseLiteral, cache))
  ∧ (∀ n : Int, cb.isCmp cache (.int n) =
      .ok (["Unexpected is_ argument"], .falseLiteral, cache)) := by
  refine ⟨?_, ?_, ?_⟩
  · intro b
    simp [ClassBoundFsmTransition.isCmp, frozenCall_attr_error, Except.map]
  · intro v
    rfl
  · intro n
    rfl
